import Mathlib

set_option maxHeartbeats 1000000

/-! Verification development for the slack-exporter repository
(`exporterVer2.py`, `exporter.py`, `bot.py`).

The core components are shallowly embedded: the rate-limited fetcher
`get_data`, the cursor paginator `get_at_cursor` / `paginated_get` (both the
`exporterVer2.py` variant and the `bot.py` variant), the transcript renderer
`parse_channel_history` with its helpers, and the attachment downloader
`download_file` / `save_files`.  Network traffic is modelled as the trace of
responses the server returns, consumed in order; Python dictionaries holding
query parameters or downloaded files are modelled as association lists;
Python strings on the renderer side are modelled as `List Char` so that the
`str.replace` / `str.split` / `str.rstrip` transformations can be stated and
proved exactly. -/

/-! ## Python string primitives -/

/-- Characters stripped by Python `str.strip()` (the ASCII whitespace set:
space, tab, newline, carriage return, vertical tab, form feed). -/
def isPySpace (c : Char) : Bool :=
  c == ' ' || c == '\t' || c == '\n' || c == '\r' || c == Char.ofNat 11 || c == Char.ofNat 12

/-- Test `str(s).strip() == ""`: the string is empty or whitespace-only.
Used by `get_at_cursor` (exporterVer2.py line 97) to normalise cursors. -/
def pyBlank (s : String) : Bool := s.data.all isPySpace

/-- The `List Char` version of `pyBlank`, for the renderer
(`msg["text"].strip() != ""`, exporterVer2.py line 353). -/
def pyBlankL (s : List Char) : Bool := s.all isPySpace

/-- Does `s` begin with `p`?  Models Python's prefix test that underlies
`str.replace`'s scan. -/
def beginsWith : List Char → List Char → Bool
  | [], _ => true
  | _ :: _, [] => false
  | p :: ps, c :: s => p == c && beginsWith ps s

/-- Does the pattern `pat` occur as a contiguous substring of `s`? -/
def occursIn (pat : List Char) : List Char → Bool
  | [] => beginsWith pat []
  | c :: s => beginsWith pat (c :: s) || occursIn pat s

/-- Fuel-driven worker for `pyReplace`; the fuel only bounds the
recursion depth (one unit per consumed character) so that the definition
is structural and evaluates by kernel reduction. -/
def pyReplaceFuel : Nat → List Char → List Char → List Char → List Char
  | 0, s, _, _ => s
  | Nat.succ _, s, [], _ => s
  | Nat.succ _, [], _ :: _, _ => []
  | Nat.succ n, c :: s, p :: ps, rep =>
    if beginsWith (p :: ps) (c :: s) then
      rep ++ pyReplaceFuel n ((c :: s).drop (p :: ps).length) (p :: ps) rep
    else
      c :: pyReplaceFuel n s (p :: ps) rep

/-- Python `s.replace(pat, rep)` on `List Char`: replace every
non-overlapping occurrence of `pat`, scanning left to right.  (All call
sites in the repository use a non-empty pattern; for an empty pattern this
model returns `s` unchanged.) -/
def pyReplace (s pat rep : List Char) : List Char :=
  pyReplaceFuel s.length s pat rep

/-- The fuel is irrelevant once it covers the string's length. -/
lemma pyReplaceFuel_congr :
    ∀ (n : Nat) (s pat rep : List Char) (m : Nat), s.length ≤ n →
      s.length ≤ m → pyReplaceFuel n s pat rep = pyReplaceFuel m s pat rep := by
  intro n
  induction n with
  | zero =>
    intro s pat rep m hn _
    have hs : s = [] := List.eq_nil_of_length_eq_zero (Nat.le_zero.mp hn)
    subst hs
    cases m with
    | zero => rfl
    | succ m => cases pat <;> rfl
  | succ n ih =>
    intro s pat rep m hn hm
    cases m with
    | zero =>
      have hs : s = [] := List.eq_nil_of_length_eq_zero (Nat.le_zero.mp hm)
      subst hs
      cases pat <;> rfl
    | succ m =>
      cases s with
      | nil => cases pat <;> rfl
      | cons c s =>
        cases pat with
        | nil => rfl
        | cons p ps =>
          show (if beginsWith (p :: ps) (c :: s) then
              rep ++ pyReplaceFuel n ((c :: s).drop (p :: ps).length) (p :: ps) rep
            else c :: pyReplaceFuel n s (p :: ps) rep) =
            (if beginsWith (p :: ps) (c :: s) then
              rep ++ pyReplaceFuel m ((c :: s).drop (p :: ps).length) (p :: ps) rep
            else c :: pyReplaceFuel m s (p :: ps) rep)
          have hn' : s.length ≤ n := by simpa using Nat.succ_le_succ_iff.mp hn
          have hm' : s.length ≤ m := by simpa using Nat.succ_le_succ_iff.mp hm
          have hlen : ((c :: s).drop (p :: ps).length).length ≤ n := by
            simp only [List.length_drop, List.length_cons]
            omega
          have hlen' : ((c :: s).drop (p :: ps).length).length ≤ m := by
            simp only [List.length_drop, List.length_cons]
            omega
          by_cases hb : beginsWith (p :: ps) (c :: s) = true
          · rw [if_pos hb, if_pos hb, ih _ _ rep _ hlen hlen']
          · rw [if_neg hb, if_neg hb, ih s _ rep m hn' hm']

/-- The defining one-step equation of `pyReplace` on a cons cell and a
non-empty pattern. -/
lemma pyReplace_cons (c : Char) (s : List Char) (p : Char)
    (ps rep : List Char) :
    pyReplace (c :: s) (p :: ps) rep =
      if beginsWith (p :: ps) (c :: s) then
        rep ++ pyReplace ((c :: s).drop (p :: ps).length) (p :: ps) rep
      else c :: pyReplace s (p :: ps) rep := by
  have h1 : pyReplace (c :: s) (p :: ps) rep =
      if beginsWith (p :: ps) (c :: s) then
        rep ++ pyReplaceFuel s.length ((c :: s).drop (p :: ps).length) (p :: ps) rep
      else c :: pyReplaceFuel s.length s (p :: ps) rep := rfl
  rw [h1]
  by_cases hb : beginsWith (p :: ps) (c :: s) = true
  · rw [if_pos hb, if_pos hb]
    have hd : ((c :: s).drop (p :: ps).length).length ≤ s.length := by
      simp only [List.length_drop, List.length_cons]
      omega
    rw [pyReplaceFuel_congr _ _ _ rep _ hd (Nat.le_refl _)]
    rfl
  · rw [if_neg hb, if_neg hb]
    rfl

/-- Python `sep.join(parts)` on `List Char`. -/
def pyJoin (sep : List Char) : List (List Char) → List Char
  | [] => []
  | [x] => x
  | x :: y :: rest => x ++ sep ++ pyJoin sep (y :: rest)

/-- Helper for `splitNL`: split a `List Char` at newline characters,
returning the first segment and the remaining segments. -/
def splitNLp : List Char → List Char × List (List Char)
  | [] => ([], [])
  | c :: s =>
    let r := splitNLp s
    if c = '\n' then ([], r.1 :: r.2) else (c :: r.1, r.2)

/-- Python `s.split("\n")`: the list of newline-separated segments
(`"".split("\n") == [""]`, and a trailing newline yields a trailing empty
segment, exactly as in Python). -/
def splitNL (s : List Char) : List (List Char) := (splitNLp s).1 :: (splitNLp s).2

/-- Python `s.rstrip("\t")`: drop every trailing tab character. -/
def rstripTab (s : List Char) : List Char :=
  (s.reverse.dropWhile (fun c => c == '\t')).reverse

/-! ## Rate-limited fetcher (`get_data`, exporterVer2.py lines 52-71) -/

/-- When rate-limited, add this to the wait time
(exporterVer2.py lines 13-14). -/
def ADDITIONAL_SLEEP_TIME : Nat := 2

/-- One raw HTTP response as seen by `get_data`: its status code and the
optional `Retry-After` header value (seconds), present on throttling
responses that carry a server retry delay. -/
structure FetchResp where
  status : Nat
  retryAfter : Option Nat
deriving DecidableEq

/-- `get_data(url, params)` (exporterVer2.py lines 52-71): issue the GET,
and while the status is 429 read the `Retry-After` header, sleep
`retry_after + ADDITIONAL_SLEEP_TIME` seconds, and retry; any non-429
response is returned as-is.  The argument is the trace of responses the
server returns to the successive attempts; the result carries the first
non-throttled response together with the list of sleep durations performed,
in order.  `.error` arises only when the model's response trace is
exhausted or a 429 response lacks the `Retry-After` header (a `KeyError` in
the source). -/
def get_data : List FetchResp → Except String (FetchResp × List Nat)
  | [] => .error "model: response trace exhausted"
  | r :: rest =>
    if r.status = 429 then
      match r.retryAfter with
      | none => .error "KeyError: Retry-After"
      | some d =>
        match get_data rest with
        | .error m => .error m
        | .ok (r', sleeps) => .ok (r', (d + ADDITIONAL_SLEEP_TIME) :: sleeps)
    else .ok (r, [])

/-! ## Cursor paginator (`get_at_cursor` / `paginated_get`,
exporterVer2.py lines 77-126)

A page response is modelled after the fields the code probes: the HTTP
status, the decoded body's `"ok"` flag (absent = `KeyError` on access), the
`response_metadata.next_cursor` value when both keys are present, and the
sub-collection stored under the combine key when that key is present.
Every call site in the repository passes a `combine_key`, so the model
covers exactly that path. -/

/-- One non-throttled page response, as consumed by `get_at_cursor` after
`get_data` has absorbed any 429s. -/
structure PageResp (α : Type) where
  status : Nat
  ok : Option Bool
  next_cursor : Option String
  collection : Option (List α)
deriving DecidableEq

/-- The outcome of one `get_at_cursor` call (exporterVer2.py lines 77-104):
`exit` models `sys.exit(1)` after `handle_print` of the given diagnostic,
`keyError` models the `except KeyError` arm that announces
`"Something went wrong"` and returns `(None, [])`, and `page` is the normal
`(next_cursor, d)` return. -/
inductive CursorOut (α : Type) where
  | exit (msg : String)
  | keyError
  | page (next : Option String) (body : PageResp α)
deriving DecidableEq

/-- Cursor normalisation (exporterVer2.py lines 94-98): a missing cursor,
or one whose `str(...).strip()` is empty, becomes `None`. -/
def normCursor (c : Option String) : Option String :=
  match c with
  | none => none
  | some s => if pyBlank s then none else some s

/-- `get_at_cursor` (exporterVer2.py lines 77-104), applied to the response
the server returns for this call: exit on non-200 status, `KeyError` arm
when the body has no `"ok"` field, exit when `ok` is `False`, and otherwise
the page with its normalised next cursor. -/
def get_at_cursor {α : Type} (r : PageResp α) : CursorOut α :=
  if r.status ≠ 200 then .exit ("ERROR: " ++ toString r.status)
  else
    match r.ok with
    | none => .keyError
    | some false => .exit "I encountered an error"
    | some true => .page (normCursor r.next_cursor) r

/-- Query parameters / downloaded-file directory: a Python dict modelled as
an association list in insertion order. -/
abbrev Params := List (String × String)

/-- Python dict assignment `d[k] = v`: overwrite the entry in place when
the key exists, append otherwise. -/
def pySet : Params → String → String → Params
  | [], k, v => [(k, v)]
  | e :: ps, k, v => if e.fst = k then (k, v) :: ps else e :: pySet ps k v

/-- Python dict lookup `d.get(k)`. -/
def pyGet : Params → String → Option String
  | [], _ => none
  | e :: ps, k => if e.fst = k then some e.snd else pyGet ps k

/-- The in-place mutation `params["cursor"] = cursor` performed by
`get_at_cursor` whenever it receives a non-`None` cursor
(exporterVer2.py lines 78-79). -/
def injectCursor (ps : Params) (cursor : Option String) : Params :=
  match cursor with
  | none => ps
  | some c => pySet ps "cursor" c

/-- The `while True` loop of `paginated_get` (exporterVer2.py lines
107-126), threading the mutable `params` dict.  Each iteration injects the
current cursor into `params`, calls `get_at_cursor` on the next server
response, extends the accumulator with `data[combine_key]`, and stops when
the returned cursor is `None`.  `.error` covers `sys.exit(1)` (bad status,
`ok=False`, or `KeyError` on the combine key in `result.extend`) and the
uncaught `TypeError` raised by `[][combine_key]` after the `keyError` arm;
the final `params` value is returned alongside. -/
def pagRun {α : Type} :
    List (PageResp α) → Params → Option String → List α →
      Except String (List α) × Params
  | [], ps, _, _ => (.error "model: response trace exhausted", ps)
  | r :: rest, ps, cursor, acc =>
    let ps' := injectCursor ps cursor
    match get_at_cursor r with
    | .exit m => (.error m, ps')
    | .keyError => (.error "TypeError: list indices must be integers", ps')
    | .page next body =>
      match body.collection with
      | none => (.error "Something went wrong: KeyError combine_key", ps')
      | some items =>
        match next with
        | none => (.ok (acc ++ items), ps')
        | some c => pagRun rest ps' (some c) (acc ++ items)

/-- `paginated_get(url, params, combine_key)` over a server response trace:
starts with `next_cursor = None` and an empty accumulator. -/
def paginated_get {α : Type} (pages : List (PageResp α)) (ps : Params) :
    Except String (List α) × Params :=
  pagRun pages ps none []

/-- A page that keeps the pagination going: status 200, `ok` true, the
combine key present, and a non-empty, non-whitespace next cursor. -/
def goodMid {α : Type} (r : PageResp α) : Bool :=
  (r.status == 200) && (r.ok == some true) && r.collection.isSome &&
    (normCursor r.next_cursor).isSome

/-- A page that ends the pagination normally: status 200, `ok` true, the
combine key present, and no next cursor (absent, empty, or
whitespace-only). -/
def goodLast {α : Type} (r : PageResp α) : Bool :=
  (r.status == 200) && (r.ok == some true) && r.collection.isSome &&
    (normCursor r.next_cursor).isNone

/-- Unpack `goodMid` into the facts the loop lemmas need. -/
lemma goodMid_spec {α : Type} {r : PageResp α} (h : goodMid r = true) :
    r.status = 200 ∧ r.ok = some true ∧ (∃ its, r.collection = some its) ∧
      ∃ c, normCursor r.next_cursor = some c := by
  simp only [goodMid, Bool.and_eq_true, beq_iff_eq, Option.isSome_iff_exists] at h
  exact ⟨h.1.1.1, h.1.1.2, h.1.2, h.2⟩

/-- Unpack `goodLast` into the facts the loop lemmas need. -/
lemma goodLast_spec {α : Type} {r : PageResp α} (h : goodLast r = true) :
    r.status = 200 ∧ r.ok = some true ∧ (∃ its, r.collection = some its) ∧
      normCursor r.next_cursor = none := by
  simp only [goodLast, Bool.and_eq_true, beq_iff_eq, Option.isSome_iff_exists,
    Option.isNone_iff_eq_none] at h
  exact ⟨h.1.1.1, h.1.1.2, h.1.2, h.2⟩

/-- Loop invariant for `pagRun` on a well-formed trace: the accumulated
result is the accumulator followed by the concatenation of every page's
extracted sub-collection, in server order, and pages after the first
terminal page are never consumed. -/
lemma pagRun_good {α : Type} (mids : List (PageResp α)) (lastR : PageResp α)
    (rest : List (PageResp α)) :
    ∀ (ps : Params) (cursor : Option String) (acc : List α),
      (∀ r ∈ mids, goodMid r = true) → goodLast lastR = true →
      (pagRun (mids ++ lastR :: rest) ps cursor acc).fst =
        .ok (acc ++ ((mids ++ [lastR]).map (fun r => r.collection.getD [])).flatten) := by
  induction mids with
  | nil =>
    intro ps cursor acc _ hl
    obtain ⟨hst, hok, ⟨its, hco⟩, hnc⟩ := goodLast_spec hl
    simp [pagRun, get_at_cursor, hst, hok, hco, hnc]
  | cons r mids ih =>
    intro ps cursor acc hm hl
    obtain ⟨hst, hok, ⟨its, hco⟩, ⟨c, hnc⟩⟩ := goodMid_spec (hm r (by simp))
    have step := ih (injectCursor ps cursor) (some c) (acc ++ its)
      (fun x hx => hm x (by simp [hx])) hl
    simp [pagRun, get_at_cursor, hst, hok, hco, hnc, step]

/-- C1.  For every paginated fetch over a well-formed trace — every page
up to the first one with an absent, empty, or whitespace-only cursor has
status 200, `ok` true, and the combine key present — `paginated_get`
returns exactly the concatenation, in server order, of the sub-collections
extracted from those pages, and it consumes no response beyond the first
terminal page (`rest` is arbitrary and unread), i.e. the loop terminates
exactly when a page supplies no next cursor or a blank one. -/
theorem c1_paginated_concat {α : Type} (mids : List (PageResp α))
    (lastR : PageResp α) (rest : List (PageResp α)) (ps : Params)
    (hm : ∀ r ∈ mids, goodMid r = true) (hl : goodLast lastR = true) :
    (paginated_get (mids ++ lastR :: rest) ps).fst =
      .ok (((mids ++ [lastR]).map (fun r => r.collection.getD [])).flatten) := by
  have h := pagRun_good mids lastR rest ps none [] hm hl
  simpa [paginated_get] using h

/-- Witness for C1: a three-page trace (the second cursor is
whitespace-only, hence terminal) followed by a junk response that is never
consumed; the result is the concatenation of the two sub-collections. -/
theorem c1_paginated_concat_witness :
    (paginated_get
      ([⟨200, some true, some "c1", some [1, 2]⟩] ++
        (⟨200, some true, some "  ", some [3]⟩ : PageResp Nat) ::
          [⟨500, none, none, none⟩])
      [("limit", "200")]).fst = .ok [1, 2, 3] := by
  have h := c1_paginated_concat
    [⟨200, some true, some "c1", some [1, 2]⟩]
    (⟨200, some true, some "  ", some [3]⟩ : PageResp Nat)
    [⟨500, none, none, none⟩] [("limit", "200")] (by decide) (by decide)
  simpa using h

/-- C2.  For every request trace consisting of any number of throttling
(429) responses each carrying a `Retry-After` delay, followed by a
non-throttling response, `get_data` sleeps exactly
`retry_after + ADDITIONAL_SLEEP_TIME` seconds for each throttled response
(hence at least the server delay plus the 2-second margin) before the next
attempt, retries with no bound on the number of attempts (the throttled
prefix is arbitrary), never raises on rate-limiting, and returns the first
non-throttled response as-is — including error statuses. -/
theorem c2_rate_limit (ts : List FetchResp) (r : FetchResp)
    (rest : List FetchResp)
    (hts : ∀ t ∈ ts, t.status = 429 ∧ t.retryAfter.isSome = true)
    (hr : r.status ≠ 429) :
    get_data (ts ++ r :: rest) =
      .ok (r, ts.map (fun t => t.retryAfter.getD 0 + ADDITIONAL_SLEEP_TIME)) := by
  induction ts with
  | nil => simp [get_data, hr]
  | cons t ts ih =>
    obtain ⟨h429, hra⟩ := hts t (by simp)
    obtain ⟨d, hd⟩ := Option.isSome_iff_exists.mp hra
    have step := ih (fun x hx => hts x (by simp [hx]))
    simp [get_data, h429, hd, step]

/-- Witness for C2: one 429 response with `Retry-After: 5` followed by a
(non-2xx!) 500 response; `get_data` sleeps 7 seconds and returns the 500
response as-is. -/
theorem c2_rate_limit_witness :
    get_data [⟨429, some 5⟩, ⟨500, none⟩] = .ok (⟨500, none⟩, [7]) := by
  have h := c2_rate_limit [⟨429, some 5⟩] ⟨500, none⟩ [] (by decide) (by decide)
  simpa using h

/-! ## C9: in-place mutation of the caller's params dict -/

/-- Reading back the key just written by `pySet`. -/
lemma pyGet_pySet_self (ps : Params) (k v : String) :
    pyGet (pySet ps k v) k = some v := by
  induction ps with
  | nil => simp [pySet, pyGet]
  | cons e ps ih =>
    by_cases h : e.fst = k
    · simp [pySet, pyGet, h]
    · simp [pySet, pyGet, h, ih]

/-- `pySet` leaves every other key untouched. -/
lemma pyGet_pySet_other (ps : Params) (k v k' : String) (h : k' ≠ k) :
    pyGet (pySet ps k v) k' = pyGet ps k' := by
  induction ps with
  | nil => simp [pySet, pyGet, Ne.symm h]
  | cons e ps ih =>
    by_cases he : e.fst = k
    · subst he
      simp [pySet, pyGet, Ne.symm h]
    · by_cases he' : e.fst = k'
      · simp [pySet, pyGet, he, he', h]
      · simp [pySet, pyGet, he, he', ih]

/-- C9 (implicit).  `get_at_cursor` mutates the caller-supplied params
mapping in place: whenever a non-`None` cursor is passed, the `"cursor"`
key is written into that mapping while every other key keeps its value, so
the base dict handed to `paginated_get` is not left unchanged across the
pages of a paginated fetch — after a two-page fetch whose first page
returned cursor `c`, the dict has become `pySet ps "cursor" c`, which
differs from the original whenever the original had no `"cursor"` key. -/
theorem c9_params_mutation {α : Type} (ps : Params) (k c : String)
    (r1 lastR : PageResp α) (hk : k ≠ "cursor") (h1 : goodMid r1 = true)
    (hc : normCursor r1.next_cursor = some c) (hl : goodLast lastR = true) :
    pyGet (injectCursor ps (some c)) "cursor" = some c ∧
    pyGet (injectCursor ps (some c)) k = pyGet ps k ∧
    (paginated_get [r1, lastR] ps).snd = pySet ps "cursor" c ∧
    (pyGet ps "cursor" = none → (paginated_get [r1, lastR] ps).snd ≠ ps) := by
  obtain ⟨hst1, hok1, ⟨its1, hco1⟩, -⟩ := goodMid_spec h1
  obtain ⟨hst2, hok2, ⟨its2, hco2⟩, hnc2⟩ := goodLast_spec hl
  have hrun : (paginated_get [r1, lastR] ps).snd = pySet ps "cursor" c := by
    simp [paginated_get, pagRun, get_at_cursor, injectCursor,
      hst1, hok1, hco1, hc, hst2, hok2, hco2, hnc2]
  refine ⟨pyGet_pySet_self ps "cursor" c, pyGet_pySet_other ps "cursor" c k hk,
    hrun, fun hnone heq => ?_⟩
  rw [hrun] at heq
  have : pyGet (pySet ps "cursor" c) "cursor" = pyGet ps "cursor" := by rw [heq]
  rw [pyGet_pySet_self, hnone] at this
  exact Option.noConfusion this

/-- Witness for C9 at a concrete two-page fetch: the base dict
`[("limit", "200")]` acquires a `"cursor"` entry and is no longer equal to
its original value, while `"limit"` is untouched. -/
theorem c9_params_mutation_witness :
    pyGet (injectCursor [("limit", "200")] (some "CUR")) "cursor" = some "CUR" ∧
    pyGet (injectCursor [("limit", "200")] (some "CUR")) "limit" =
      pyGet [("limit", "200")] "limit" ∧
    (paginated_get
        [(⟨200, some true, some "CUR", some [1]⟩ : PageResp Nat),
          ⟨200, some true, none, some [2]⟩]
        [("limit", "200")]).snd = pySet [("limit", "200")] "cursor" "CUR" ∧
    (pyGet [("limit", "200")] "cursor" = none →
      (paginated_get
        [(⟨200, some true, some "CUR", some [1]⟩ : PageResp Nat),
          ⟨200, some true, none, some [2]⟩]
        [("limit", "200")]).snd ≠ [("limit", "200")]) :=
  c9_params_mutation [("limit", "200")] "limit" "CUR"
    ⟨200, some true, some "CUR", some [1]⟩ ⟨200, some true, none, some [2]⟩
    (by decide) (by decide) (by decide) (by decide)

/-! ## C3: application-level errors end the fetch (Ver2) — but not in bot.py

`bot.py` has its own `get_at_cursor` / `paginated_get` (lines 22-58).  The
differences from exporterVer2.py matter for claim C3: on `data['ok'] is
False` the bot only posts the error text (`data['error']`) to the response
URL and **continues**; a `KeyError` when extending with
`data[combine_key]` is caught, announced, and the loop **continues** as
well.  There is no `sys.exit` anywhere in the bot's paginator. -/

/-- One page body as probed by bot.py: the `"ok"` flag, the `"error"`
descriptor, `response_metadata.next_cursor`, and the sub-collection under
the combine key. -/
structure BotResp (α : Type) where
  ok : Option Bool
  error : Option String
  next_cursor : Option String
  collection : Option (List α)
deriving DecidableEq

/-- Outcome of bot.py's `get_at_cursor` (lines 22-43): `keyErr` is the
`except KeyError` arm (announce, return `(None, [])`); `page` carries an
optional announcement (the `ok=False` error post) plus the normalised
cursor and the body. -/
inductive BotCur (α : Type) where
  | keyErr (msg : String)
  | page (announce : Option String) (next : Option String) (body : BotResp α)

/-- bot.py `get_at_cursor` (lines 22-43): an `ok=False` body posts
`"I encountered an error: ..."` and then falls through to the normal
return; a missing `"ok"` or (on the `ok=False` path) missing `"error"`
field raises `KeyError`, which is announced and turned into `(None, [])`. -/
def botGetAtCursor {α : Type} (r : BotResp α) : BotCur α :=
  match r.ok with
  | none => .keyErr "Something went wrong: KeyError ok"
  | some false =>
    match r.error with
    | none => .keyErr "Something went wrong: KeyError error"
    | some e => .page (some ("I encountered an error: " ++ e))
        (normCursor r.next_cursor) r
  | some true => .page none (normCursor r.next_cursor) r

/-- bot.py `paginated_get` (lines 46-58), returning the result (or the
uncaught `TypeError` from `[][combine_key]` after a `keyErr` sentinel)
together with the list of messages posted to the response URL.  Note: on a
missing combine key the bot announces and **keeps looping**; on `ok=False`
it announces and still extends the result. -/
def botPagRun {α : Type} :
    List (BotResp α) → List α → List String →
      Except String (List α) × List String
  | [], _, log => (.error "model: response trace exhausted", log)
  | r :: rest, acc, log =>
    match botGetAtCursor r with
    | .keyErr m => (.error "TypeError: list indices must be integers", log ++ [m])
    | .page ann next body =>
      let log := log ++ ann.toList
      match body.collection with
      | none =>
        let log := log ++ ["Sorry! I got an unexpected response (KeyError)."]
        match next with
        | none => (.ok acc, log)
        | some _ => botPagRun rest acc log
      | some items =>
        match next with
        | none => (.ok (acc ++ items), log)
        | some _ => botPagRun rest (acc ++ items) log

/-- bot.py `paginated_get` from the start of the loop. -/
def botPaginatedGet {α : Type} (pages : List (BotResp α)) :
    Except String (List α) × List String :=
  botPagRun pages [] []

/-- Counterexample to C3 as stated.  The claim covers bot.py's paginator
(cited lines bot.py 29-58): a single page whose top-level success flag is
false must make "the whole paginated fetch terminate without returning
partial results as if complete".  Instead, bot.py's `paginated_get`
announces the error and then returns the page's sub-collection as a normal,
complete-looking result. -/
theorem c3_counterexample :
    botPaginatedGet [(⟨some false, some "account_inactive", none, some [7]⟩ :
        BotResp Nat)] =
      (.ok [7], ["I encountered an error: account_inactive"]) := by
  rfl

/-- A page that makes the Ver2 paginator fail at the application level:
bad HTTP status, missing `"ok"` field, `ok=False`, or a missing combine
key. -/
def badPage {α : Type} (r : PageResp α) : Bool :=
  (r.status != 200) || r.ok.isNone || (r.ok == some false) || r.collection.isNone

/-- Loop lemma for C3: once the trace reaches a bad page, `pagRun` ends in
`.error` no matter what follows. -/
lemma pagRun_bad {α : Type} (mids : List (PageResp α)) (bad : PageResp α)
    (rest : List (PageResp α)) :
    ∀ (ps : Params) (cursor : Option String) (acc : List α),
      (∀ r ∈ mids, goodMid r = true) → badPage bad = true →
      ∃ m, (pagRun (mids ++ bad :: rest) ps cursor acc).fst = .error m := by
  induction mids with
  | nil =>
    intro ps cursor acc _ hb
    by_cases hst : bad.status = 200
    · cases hok : bad.ok with
      | none =>
        exact ⟨"TypeError: list indices must be integers",
          by simp [pagRun, get_at_cursor, hst, hok]⟩
      | some b =>
        cases b with
        | false =>
          exact ⟨"I encountered an error",
            by simp [pagRun, get_at_cursor, hst, hok]⟩
        | true =>
          have hco : bad.collection = none := by
            simpa [badPage, hst, hok] using hb
          exact ⟨"Something went wrong: KeyError combine_key",
            by simp [pagRun, get_at_cursor, hst, hok, hco]⟩
    · exact ⟨"ERROR: " ++ toString bad.status,
        by simp [pagRun, get_at_cursor, hst]⟩
  | cons r mids ih =>
    intro ps cursor acc hm hb
    obtain ⟨hst, hok, ⟨its, hco⟩, ⟨c, hnc⟩⟩ := goodMid_spec (hm r (by simp))
    obtain ⟨m, hmend⟩ := ih (injectCursor ps cursor) (some c) (acc ++ its)
      (fun x hx => hm x (by simp [hx])) hb
    exact ⟨m, by simp [pagRun, get_at_cursor, hst, hok, hco, hnc, hmend]⟩

/-- C3 as amended.  In the exporterVer2.py paginator the claim holds: for
every trace whose pages are well-formed up to a page with `ok=False`, a
missing `"ok"` field, a missing combine key, or a non-200 status, the whole
paginated fetch ends in `.error` (a `sys.exit(1)` after the diagnostic is
surfaced through `handle_print`, or the uncaught `TypeError`), never in a
`.ok` carrying the partial accumulator.  The bot.py variant violates the
original claim (`c3_counterexample`): it announces the error but keeps
going and returns results as if complete. -/
theorem c3_error_terminates {α : Type} (mids : List (PageResp α))
    (bad : PageResp α) (rest : List (PageResp α)) (ps : Params)
    (hm : ∀ r ∈ mids, goodMid r = true) (hb : badPage bad = true) :
    ∃ m, (paginated_get (mids ++ bad :: rest) ps).fst = .error m := by
  obtain ⟨m, hmend⟩ := pagRun_bad mids bad rest ps none [] hm hb
  exact ⟨m, by simpa [paginated_get] using hmend⟩

/-- Witness for the amended C3: a good first page followed by an
`ok=False` page; the Ver2 fetch ends in `.error` even though a further
page was available. -/
theorem c3_error_terminates_witness :
    ∃ m, (paginated_get
      ([⟨200, some true, some "c1", some [1]⟩] ++
        (⟨200, some false, some "c2", some [2]⟩ : PageResp Nat) ::
          [⟨200, some true, none, some [3]⟩])
      []).fst = .error m :=
  c3_error_terminates [⟨200, some true, some "c1", some [1]⟩]
    ⟨200, some false, some "c2", some [2]⟩ [⟨200, some true, none, some [3]⟩]
    [] (by decide) (by decide)

/-! ## Attachment downloader (`download_file` / `save_files`,
exporterVer2.py lines 411-454)

The filesystem (the target directory) is modelled as a `Params` map from
destination path to file content; the network is an oracle giving, per URL
and per attempt number, either a response (status and body) or a raised
exception (covering both the request and the file write). -/

/-- The outcome of one download attempt: an HTTP response with some status
code and body, or an exception raised during the request or the write. -/
inductive NetOut where
  | resp (status : Nat) (body : String)
  | exc
deriving DecidableEq

/-- `download_file(destination_path, url, attempt)` (exporterVer2.py lines
411-427): if the destination path already exists the download is skipped
entirely (no request is issued) and `True` is returned; otherwise the GET
is attempted — an exception yields `False`, and any response, whatever its
status code, has its body written to the destination path and yields
`True`.  Result: `(success, filesystem after the call, number of network
transfers issued)`. -/
def download_file (fs : Params) (path : String) (out : NetOut) :
    Bool × Params × Nat :=
  if fs.any (fun e => e.fst = path) then (true, fs, 0)
  else
    match out with
    | .exc => (false, fs, 1)
    | .resp _ body => (true, pySet fs path body, 1)

/-- The `while not download_success and attempt <= 10` loop of
`save_files` (exporterVer2.py lines 440-444): `attempt` is the current
attempt number, `remaining` the number of attempts still allowed (10 at
entry).  Accumulates the number of transfers issued. -/
def attemptLoop (path : String) (net : Nat → NetOut) :
    Nat → Nat → Params → Bool × Params × Nat
  | _, 0, fs => (false, fs, 0)
  | attempt, Nat.succ rem, fs =>
    let r := download_file fs path (net attempt)
    if r.fst then (true, r.snd.fst, r.snd.snd)
    else
      let r' := attemptLoop path net (attempt + 1) rem r.snd.fst
      (r'.fst, r'.snd.fst, r.snd.snd + r'.snd.snd)

/-- One file record from the paginated `files.list` response, with the
fields `save_files` uses. -/
structure SFileInfo where
  id : String
  fname : String
  url_private : String
deriving DecidableEq

/-- The destination path `"{id}-{name}"` built by `save_files` after
`file_info["name"] = sanitize_filename(file_info["name"])`
(exporterVer2.py lines 435-438); the sanitizer (external `pathvalidate`
library) is passed in as a function. -/
def destPath (sanitize : String → String) (f : SFileInfo) : String :=
  f.id ++ "-" ++ sanitize f.fname

/-- `save_files(file_dir, channel_id)` (exporterVer2.py lines 430-454) over
the listed files: each file gets up to 10 download attempts; if all 10
fail, the whole operation aborts with the fatal error (no partial
skip-and-continue).  Result on success: the final filesystem and the total
number of network transfers issued. -/
def save_files (sanitize : String → String) (net : String → Nat → NetOut)
    (fs : Params) : List SFileInfo → Except String (Params × Nat)
  | [] => .ok (fs, 0)
  | f :: rest =>
    let path := destPath sanitize f
    let r := attemptLoop path (net f.url_private) 1 10 fs
    if r.fst then
      match save_files sanitize net r.snd.fst rest with
      | .ok (fs', t) => .ok (fs', r.snd.snd + t)
      | .error m => .error m
    else .error "Failed to download from \x7burl\x7d after \x7battempt\x7d tries"


/-- Key membership after a `pySet`: the written key joins the key set, and
every existing key stays. -/
lemma pySet_any_key (ps : Params) (k v p : String) :
    (pySet ps k v).any (fun e => e.fst = p) =
      (ps.any (fun e => e.fst = p) || decide (p = k)) := by
  induction ps with
  | nil =>
    by_cases hkp : p = k
    · subst hkp
      simp [pySet]
    · have h2 : ¬(k = p) := fun h => hkp h.symm
      simp [pySet, hkp, h2]
  | cons e ps ih =>
    by_cases hep : e.fst = k
    · by_cases hkp : p = k
      · subst hkp
        simp [pySet, hep]
      · have h2 : ¬(k = p) := fun h => hkp h.symm
        simp [pySet, hep, h2, hkp]
    · simp [pySet, hep, ih, Bool.or_assoc]

/-- `download_file` never removes a path from the filesystem. -/
lemma download_file_mono (fs : Params) (path p : String) (out : NetOut)
    (h : fs.any (fun e => e.fst = p) = true) :
    ((download_file fs path out).snd.fst).any (fun e => e.fst = p) = true := by
  unfold download_file
  by_cases hex : fs.any (fun e => e.fst = path) = true
  · simpa [hex] using h
  · cases out with
    | exc => simpa [hex] using h
    | resp s body => simp [hex, pySet_any_key, h]

/-- A successful `download_file` leaves the destination path present. -/
lemma download_file_success_has (fs : Params) (path : String) (out : NetOut)
    (h : (download_file fs path out).fst = true) :
    ((download_file fs path out).snd.fst).any (fun e => e.fst = path) = true := by
  unfold download_file at h ⊢
  by_cases hex : fs.any (fun e => e.fst = path) = true
  · simp [hex]
  · cases out with
    | exc => simp [hex] at h
    | resp s body => simp [hex, pySet_any_key]

/-- When the destination path already exists, the attempt loop issues no
transfer at all and succeeds immediately. -/
lemma attemptLoop_skip (path : String) (net : Nat → NetOut) (attempt rem : Nat)
    (fs : Params) (h : fs.any (fun e => e.fst = path) = true) :
    attemptLoop path net attempt (rem + 1) fs = (true, fs, 0) := by
  simp [attemptLoop, download_file, h]

/-- The attempt loop never removes a path from the filesystem. -/
lemma attemptLoop_mono (path p : String) (net : Nat → NetOut) :
    ∀ (rem attempt : Nat) (fs : Params),
      fs.any (fun e => e.fst = p) = true →
      ((attemptLoop path net attempt rem fs).snd.fst).any
        (fun e => e.fst = p) = true := by
  intro rem
  induction rem with
  | zero => intro attempt fs h; simpa [attemptLoop] using h
  | succ k ih =>
    intro attempt fs h
    by_cases hd : (download_file fs path (net attempt)).fst = true
    · simpa [attemptLoop, hd] using download_file_mono fs path p (net attempt) h
    · simp only [attemptLoop, hd, Bool.false_eq_true, if_false]
      exact ih (attempt + 1) _ (download_file_mono fs path p (net attempt) h)

/-- A successful attempt loop leaves the destination path present. -/
lemma attemptLoop_success_has (path : String) (net : Nat → NetOut) :
    ∀ (rem attempt : Nat) (fs : Params),
      (attemptLoop path net attempt rem fs).fst = true →
      ((attemptLoop path net attempt rem fs).snd.fst).any
        (fun e => e.fst = path) = true := by
  intro rem
  induction rem with
  | zero => intro attempt fs h; simp [attemptLoop] at h
  | succ k ih =>
    intro attempt fs h
    by_cases hd : (download_file fs path (net attempt)).fst = true
    · simpa [attemptLoop, hd] using download_file_success_has fs path (net attempt) hd
    · simp only [attemptLoop, hd, Bool.false_eq_true, if_false] at h ⊢
      exact ih (attempt + 1) _ h

/-- When every listed file's destination path already exists, `save_files`
succeeds with zero network transfers and an unchanged filesystem. -/
lemma save_files_skip_all (sanitize : String → String)
    (net : String → Nat → NetOut) :
    ∀ (files : List SFileInfo) (fs : Params),
      (∀ f ∈ files, fs.any (fun e => e.fst = destPath sanitize f) = true) →
      save_files sanitize net fs files = .ok (fs, 0) := by
  intro files
  induction files with
  | nil => intro fs _; rfl
  | cons f rest ih =>
    intro fs h
    have hskip := attemptLoop_skip (destPath sanitize f) (net f.url_private) 1 9
      fs (h f (by simp))
    have hrest := ih fs (fun x hx => h x (by simp [hx]))
    simp [save_files, hskip, hrest]

/-- A successful `save_files` run preserves every existing path and leaves
every listed file's destination path present. -/
lemma save_files_success_has (sanitize : String → String)
    (net : String → Nat → NetOut) :
    ∀ (files : List SFileInfo) (fs fs₁ : Params) (t : Nat),
      save_files sanitize net fs files = .ok (fs₁, t) →
      (∀ p, fs.any (fun e => e.fst = p) = true →
        fs₁.any (fun e => e.fst = p) = true) ∧
      (∀ f ∈ files, fs₁.any (fun e => e.fst = destPath sanitize f) = true) := by
  intro files
  induction files with
  | nil =>
    intro fs fs₁ t h
    simp only [save_files, Except.ok.injEq, Prod.mk.injEq] at h
    exact ⟨fun p hp => h.1 ▸ hp, by simp⟩
  | cons f rest ih =>
    intro fs fs₁ t h
    simp only [save_files] at h
    by_cases hr : (attemptLoop (destPath sanitize f) (net f.url_private) 1 10 fs).fst = true
    · rw [if_pos hr] at h
      cases hrest : save_files sanitize net
          (attemptLoop (destPath sanitize f) (net f.url_private) 1 10 fs).snd.fst
          rest with
      | error m => rw [hrest] at h; exact absurd h (by simp)
      | ok pr =>
        rw [hrest] at h
        simp only [Except.ok.injEq, Prod.mk.injEq] at h
        obtain ⟨hfs, -⟩ := h
        obtain ⟨ihmono, ihdest⟩ := ih _ pr.1 pr.2 (by rw [hrest])
        refine ⟨fun p hp => hfs ▸ ihmono p
          (attemptLoop_mono (destPath sanitize f) p (net f.url_private) 10 1 fs hp),
          fun x hx => ?_⟩
        rcases List.mem_cons.mp hx with hx | hx
        · subst hx
          exact hfs ▸ ihmono (destPath sanitize x)
            (attemptLoop_success_has (destPath sanitize x) (net x.url_private) 10 1 fs hr)
        · exact hfs ▸ ihdest x hx
    · rw [if_neg hr] at h
      exact absurd h (by simp)

/-- C8.  The attachment downloader is idempotent across reruns: when every
listed file's destination path `{id}-{sanitizedName}` already exists in the
target directory, `save_files` performs zero network transfers and leaves
the directory unchanged; consequently a second `save_files` invocation
(under any network behaviour `net'`) after a successful first run performs
zero network transfers and changes nothing. -/
theorem c8_downloader_idempotent (sanitize : String → String)
    (net net' : String → Nat → NetOut) (fs : Params) (files : List SFileInfo) :
    ((∀ f ∈ files, fs.any (fun e => e.fst = destPath sanitize f) = true) →
      save_files sanitize net fs files = .ok (fs, 0)) ∧
    (∀ fs₁ t, save_files sanitize net fs files = .ok (fs₁, t) →
      save_files sanitize net' fs₁ files = .ok (fs₁, 0)) := by
  refine ⟨save_files_skip_all sanitize net files fs, fun fs₁ t h => ?_⟩
  exact save_files_skip_all sanitize net' files fs₁
    ((save_files_success_has sanitize net files fs fs₁ t h).2)

/-- Witness for C8: a first run over one file downloads it (one transfer);
the second run over the same directory — even with a network that would
now always raise — performs zero transfers and returns the directory
unchanged. -/
theorem c8_downloader_idempotent_witness :
    save_files (fun s => s) (fun _ _ => NetOut.exc)
      [("F1-a.txt", "BODY")] [⟨"F1", "a.txt", "u1"⟩] =
      .ok ([("F1-a.txt", "BODY")], 0) :=
  (c8_downloader_idempotent (fun s => s) (fun _ _ => NetOut.resp 200 "BODY")
    (fun _ _ => NetOut.exc) [] [⟨"F1", "a.txt", "u1"⟩]).2
    [("F1-a.txt", "BODY")] 1 (by rfl)

/-- C10 (implicit).  `download_file` reports success for every HTTP
response regardless of its status code, writing the response body to the
destination path; an attempt fails if and only if the path was absent and
an exception was raised during the request or the write — an HTTP error
status (404, 500, ...) is still recorded as a successful download of
whatever body was returned. -/
theorem c10_download_status_ignored (fs : Params) (path : String) (s : Nat)
    (body : String) (out : NetOut) :
    (download_file fs path (.resp s body)).fst = true ∧
    (fs.any (fun e => e.fst = path) = false →
      pyGet (download_file fs path (.resp s body)).snd.fst path = some body) ∧
    ((download_file fs path out).fst = false ↔
      fs.any (fun e => e.fst = path) = false ∧ out = .exc) := by
  by_cases hex : fs.any (fun e => e.fst = path) = true
  · refine ⟨by simp [download_file, hex], fun h => absurd hex (by simp [h]), ?_⟩
    simp [download_file, hex]
  · simp only [Bool.not_eq_true] at hex
    have hex' : fs.any (fun e => e.fst = path) = false := hex
    refine ⟨by simp [download_file, hex'], fun _ => ?_, ?_⟩
    · simp [download_file, hex', pyGet_pySet_self]
    · cases out with
      | exc => simp [download_file, hex']
      | resp s' body' => simp [download_file, hex']

/-- Witness for C10: a 404 response is recorded as a successful download of
its body, while an exception on an absent path fails. -/
theorem c10_download_status_ignored_witness :
    (download_file [] "p" (.resp 404 "Not Found")).fst = true ∧
    ((List.any ([] : Params) fun e => e.fst = "p") = false →
      pyGet (download_file [] "p" (.resp 404 "Not Found")).snd.fst "p" =
        some "Not Found") ∧
    ((download_file [] "p" NetOut.exc).fst = false ↔
      (List.any ([] : Params) fun e => e.fst = "p") = false ∧ NetOut.exc = NetOut.exc) :=
  c10_download_status_ignored [] "p" 404 "Not Found" NetOut.exc

/-! ## Transcript renderer (`parse_channel_history` and helpers,
exporterVer2.py lines 258-408)

Records are modelled with the fields the renderer probes; a field whose
absence the code tolerates (tested with `in` or `try/except`) is an
`Option`, while a field the code accesses unconditionally (`"id"`,
`"name"`, `"type"`, `"ts"`, `"text"`) is total — a record lacking it would
crash the renderer and is outside every claim.  Strings are `List Char`.
The message timestamp is the integer `round(float(msg["ts"]))` already
computed, in epoch seconds; `datetime.fromtimestamp` converts it using the
ambient local timezone, which the model passes explicitly as an offset in
seconds (`tzOff`). -/

/-- One user record, with the fields `name_from_uid` probes
(exporterVer2.py lines 258-274). -/
structure SUser where
  id : List Char
  uname : List Char
  real_name : Option (List Char)
  display_name : Option (List Char)
deriving DecidableEq

/-- One reaction record (name and the ids of the users who reacted). -/
structure SReaction where
  rname : List Char
  users : List (List Char)
deriving DecidableEq

/-- One file-attachment record; `fname` is the `"name"` key and `url` the
`"url_private_download"` key, both optional (their absence marks a deleted,
oversize, or unavailable file). -/
structure SFile where
  id : List Char
  fname : Option (List Char)
  url : Option (List Char)
deriving DecidableEq

/-- One message record, with the fields `parse_channel_history` probes. -/
structure SMsg where
  type : List Char
  user : Option (List Char)
  ts : Nat
  text : List Char
  reactions : Option (List SReaction)
  files : Option (List SFile)
  parent_user_id : Option (List Char)
deriving DecidableEq

/-- `name_from_uid(user_id, users, real)` (exporterVer2.py lines 258-274):
first user whose id matches wins; with `real=True` fall through
`profile.real_name`, then `profile.display_name`, then `"[no full name]"`;
with `real=False` return the `"name"` field; no match gives
`"[null user]"`. -/
def name_from_uid (uid : List Char) : List SUser → Bool → List Char
  | [], _ => "[null user]".data
  | u :: rest, real =>
    if u.id ≠ uid then name_from_uid uid rest real
    else if real then
      match u.real_name with
      | some rn => rn
      | none =>
        match u.display_name with
        | some dn => dn
        | none => "[no full name]".data
    else u.uname

/-- The literal mention pattern `"<@%s>" % u` (exporterVer2.py line 356). -/
def mentionPat (uid : List Char) : List Char :=
  "<@".data ++ uid ++ ">".data

/-- The replacement `"<@%s> (%s)" % (u, name_from_uid(u, users))`
(exporterVer2.py line 357). -/
def mentionRep (uid : List Char) (users : List SUser) : List Char :=
  "<@".data ++ uid ++ "> (".data ++ name_from_uid uid users false ++ ")".data

/-- The mention-substitution pass (exporterVer2.py lines 355-358): for
every user id in directory order, replace every literal `<@USERID>` in the
text with `<@USERID> (resolved-name)`. -/
def substituteMentions (text : List Char) (users : List SUser) : List Char :=
  (users.map (fun x => x.id)).foldl
    (fun t u => pyReplace t (mentionPat u) (mentionRep u users)) text

/-- Two decimal digits with a leading zero (`strftime` zero padding). -/
def pad2 (n : Nat) : List Char :=
  if n < 10 then '0' :: Nat.toDigits 10 n else Nat.toDigits 10 n

/-- Proleptic-Gregorian civil date from a day count relative to 1970-01-01
(the standard era-based conversion used by civil-time libraries); returns
`(year, month, day)`. -/
def civilFromDays (z0 : Int) : Int × Nat × Nat :=
  let z : Int := z0 + 719468
  let era : Int := z.ediv 146097
  let doe : Nat := (z.emod 146097).toNat
  let yoe : Nat := (doe - doe / 1460 + doe / 36524 - doe / 146096) / 365
  let y : Int := (yoe : Int) + era * 400
  let doy : Nat := doe - (365 * yoe + yoe / 4 - yoe / 100)
  let mp : Nat := (5 * doy + 2) / 153
  let d : Nat := doy - (153 * mp + 2) / 5 + 1
  let m : Nat := if mp < 10 then mp + 3 else mp - 9
  (if m ≤ 2 then y + 1 else y, m, d)

/-- `datetime.fromtimestamp(t).strftime("%m-%d-%y %H:%M:%S")`
(exporterVer2.py lines 350-352): convert epoch seconds to the ambient
local timezone (offset `tzOff` seconds, the environment dependence of
`fromtimestamp`) and format. -/
def fmtTimestamp (tzOff : Int) (t : Nat) : List Char :=
  let loc : Int := (t : Int) + tzOff
  let days : Int := loc.ediv 86400
  let sod : Nat := (loc.emod 86400).toNat
  let c := civilFromDays days
  let yy : Nat := (c.fst.emod 100).toNat
  pad2 c.snd.fst ++ "-".data ++ pad2 c.snd.snd ++ "-".data ++ pad2 yy ++
    " ".data ++ pad2 (sod / 3600) ++ ":".data ++ pad2 (sod % 3600 / 60) ++
    ":".data ++ pad2 (sod % 60)

/-- The reactions line (exporterVer2.py lines 366-372). -/
def reactionsPart (users : List SUser) (rxns : List SReaction) : List Char :=
  "\nReactions: ".data ++
    pyJoin ", ".data (rxns.map (fun x =>
      x.rname ++ " (".data ++
        pyJoin ", ".data (x.users.map (fun u => name_from_uid u users false)) ++
        ")".data))

/-- The files section (exporterVer2.py lines 373-388): attachments missing
`name` or `url_private_download` are listed as deleted; note that the code
joins the two groups with **no** separator between them. -/
def filesPart (files : List SFile) : List Char :=
  let deleted := files.filter (fun f => f.fname.isNone || f.url.isNone)
  let ok_files := files.filter (fun f => decide (f ∉ deleted))
  "\nFiles:\n".data ++
    pyJoin "\n".data (ok_files.map (fun f =>
      " - [".data ++ f.id ++ "] ".data ++ f.fname.getD [] ++ ", ".data ++
        f.url.getD [])) ++
    pyJoin "\n".data (deleted.map (fun f =>
      " - [".data ++ f.id ++ "] [deleted, oversize, or unavailable file]".data))

/-- The 24-star separator `"*" * 24` (exporterVer2.py line 390). -/
def sepStars : List Char := List.replicate 24 '*'

/-- One message's entry before thread handling (exporterVer2.py lines
342-390): header with local-time timestamp and resolved author names, the
mention-substituted text (blank text becomes `"[no message content]"`),
optional reactions line, optional files section, and the separator
framed by blank lines. -/
def renderCore (tzOff : Int) (users : List SUser) (msg : SMsg) : List Char :=
  let usrName := match msg.user with
    | some uid => name_from_uid uid users false
    | none => []
  let usrReal := match msg.user with
    | some uid => name_from_uid uid users true
    | none => "none".data
  let text0 := if pyBlankL msg.text then "[no message content]".data else msg.text
  let text := substituteMentions text0 users
  let e := "Message at ".data ++ fmtTimestamp tzOff msg.ts ++ "\nUser: ".data ++
    usrName ++ " (".data ++ usrReal ++ ")\n".data ++ text
  let e := match msg.reactions with
    | none => e
    | some rxns => e ++ reactionsPart users rxns
  match msg.files with
  | none => e
  | some fs => e ++ filesPart fs

/-- One message's full rendered block (exporterVer2.py lines 390-397):
append the separator block, prefix every split line with a tab when
rendering a thread reply (`check_thread` and a present `parent_user_id`),
then `rstrip("\t")` before accumulation. -/
def renderMsg (tzOff : Int) (users : List SUser) (check_thread : Bool)
    (msg : SMsg) : List Char :=
  let entry := renderCore tzOff users msg ++ "\n\n".data ++ sepStars ++ "\n\n".data
  let entry :=
    if check_thread && msg.parent_user_id.isSome then
      pyJoin "\n".data ((splitNL entry).map (fun x => '\t' :: x))
    else entry
  rstripTab entry

/-- `parse_channel_history(msgs, users, check_thread)` (exporterVer2.py
lines 334-399) on a message list (every call site passes the list produced
by pagination): filter to records of type `"message"` and concatenate
their rendered blocks. -/
def parse_channel_history (tzOff : Int) (msgs : List SMsg) (users : List SUser)
    (check_thread : Bool) : List Char :=
  ((msgs.filter (fun m => m.type == "message".data)).map
    (renderMsg tzOff users check_thread)).flatten

/-- `parse_replies(threads, users)` (exporterVer2.py lines 402-408). -/
def parse_replies (tzOff : Int) (threads : List (List SMsg))
    (users : List SUser) : List Char :=
  threads.foldl
    (fun b th => b ++ parse_channel_history tzOff th users true ++ "\n".data) []

/-! ## Lemmas about the line-splitting primitives (for claim C5) -/

/-- A newline-free string is a single segment. -/
lemma splitNLp_noNL (s : List Char) (h : '\n' ∉ s) : splitNLp s = (s, []) := by
  induction s with
  | nil => rfl
  | cons c s ih =>
    have hc : ¬(c = '\n') := fun hh => h (hh ▸ List.mem_cons_self c s)
    simp [splitNLp, hc, ih (fun hm => h (List.mem_cons_of_mem c hm))]

/-- Splitting at the first newline after a newline-free head. -/
lemma splitNLp_head (x r : List Char) (h : '\n' ∉ x) :
    splitNLp (x ++ '\n' :: r) = (x, splitNL r) := by
  induction x with
  | nil => simp [splitNLp, splitNL]
  | cons c x ih =>
    have hc : ¬(c = '\n') := fun hh => h (hh ▸ List.mem_cons_self c x)
    simp [splitNLp, hc, ih (fun hm => h (List.mem_cons_of_mem c hm))]

/-- A trailing newline contributes a trailing empty segment (`splitNLp`
form). -/
lemma splitNLp_concat_NL (x : List Char) :
    splitNLp (x ++ ['\n']) = ((splitNLp x).1, (splitNLp x).2 ++ [[]]) := by
  induction x with
  | nil => simp [splitNLp]
  | cons c x ih =>
    by_cases hc : c = '\n' <;> simp [splitNLp, hc, ih]

/-- A trailing newline contributes a trailing empty segment. -/
lemma splitNL_concat_NL (x : List Char) :
    splitNL (x ++ ['\n']) = splitNL x ++ [[]] := by
  simp [splitNL, splitNLp_concat_NL]

/-- `splitNL` always yields at least one segment. -/
lemma splitNL_ne_nil (s : List Char) : splitNL s ≠ [] := by
  simp [splitNL]

/-- No segment produced by `splitNL` contains a newline. -/
lemma splitNLp_noNL_segs (s : List Char) :
    '\n' ∉ (splitNLp s).1 ∧ ∀ seg ∈ (splitNLp s).2, '\n' ∉ seg := by
  induction s with
  | nil => simp [splitNLp]
  | cons c s ih =>
    by_cases hc : c = '\n'
    · simpa [splitNLp, hc] using ⟨ih.1, ih.2⟩
    · refine ⟨?_, by simpa [splitNLp, hc] using ih.2⟩
      simp only [splitNLp, hc, if_false]
      exact fun hm => by
        rcases List.mem_cons.mp hm with hh | hh
        · exact hc hh.symm
        · exact ih.1 hh

/-- No segment produced by `splitNL` contains a newline. -/
lemma splitNL_noNL_segs (s : List Char) : ∀ seg ∈ splitNL s, '\n' ∉ seg := by
  intro seg hseg
  rcases List.mem_cons.mp hseg with h | h
  · exact h ▸ (splitNLp_noNL_segs s).1
  · exact (splitNLp_noNL_segs s).2 seg h

/-- `splitNL` inverts `pyJoin "\n"` on newline-free segments. -/
lemma splitNL_pyJoin (ss : List (List Char)) (hne : ss ≠ [])
    (h : ∀ seg ∈ ss, '\n' ∉ seg) :
    splitNL (pyJoin ['\n'] ss) = ss := by
  induction ss with
  | nil => exact absurd rfl hne
  | cons x ss ih =>
    cases ss with
    | nil =>
      simp [pyJoin, splitNL, splitNLp_noNL x (h x (by simp))]
    | cons y rest =>
      have hx : '\n' ∉ x := h x (by simp)
      have hj : pyJoin ['\n'] (x :: y :: rest) =
          x ++ '\n' :: pyJoin ['\n'] (y :: rest) := by
        simp [pyJoin]
      rw [hj, splitNL, splitNLp_head x _ hx]
      have := ih (by simp) (fun seg hseg => h seg (by simp [hseg]))
      simpa using this

/-- Dropping trailing tabs is the identity on a string ending in a
newline. -/
lemma rstripTab_NL (z : List Char) : rstripTab (z ++ ['\n']) = z ++ ['\n'] := by
  simp [rstripTab, List.dropWhile]

/-- Dropping trailing tabs on a string ending in newline-tab removes
exactly the tab. -/
lemma rstripTab_NL_tab (z : List Char) :
    rstripTab (z ++ ['\n', '\t']) = z ++ ['\n'] := by
  have h : z ++ ['\n', '\t'] = (z ++ ['\n']) ++ ['\t'] := by simp
  rw [h]
  simp [rstripTab, List.dropWhile]

/-- Joining a non-empty list with one extra segment appended. -/
lemma pyJoin_concat (sep x : List Char) (ss : List (List Char)) (h : ss ≠ []) :
    pyJoin sep (ss ++ [x]) = pyJoin sep ss ++ sep ++ x := by
  induction ss with
  | nil => exact absurd rfl h
  | cons y ss ih =>
    cases ss with
    | nil => simp [pyJoin]
    | cons z rest =>
      have step := ih (by simp)
      simp only [List.cons_append, pyJoin, List.append_eq] at step ⊢
      rw [step]
      simp

/-- The tab-indentation transform of exporterVer2.py lines 392-397 on any
block ending in a newline: after `"\n".join("\t%s" % x for x in
entry.split("\n"))` and the final `rstrip("\t")`, the block's lines are
exactly the original lines each prefixed with one tab, and the trailing
empty segment (after the final newline) stays empty. -/
lemma tabBlock_split (Y : List Char) :
    splitNL (rstripTab (pyJoin ['\n']
        ((splitNL (Y ++ ['\n'])).map (fun x => '\t' :: x)))) =
      (splitNL (Y ++ ['\n'])).dropLast.map (fun l => '\t' :: l) ++ [[]] := by
  rw [splitNL_concat_NL]
  have hmap : (splitNL Y ++ [[]]).map (fun x : List Char => '\t' :: x) =
      (splitNL Y).map (fun x => '\t' :: x) ++ [['\t']] := by simp
  rw [hmap]
  have hAne : (splitNL Y).map (fun x : List Char => '\t' :: x) ≠ [] := by
    simp [splitNL]
  rw [pyJoin_concat ['\n'] ['\t'] _ hAne]
  have hsh : pyJoin ['\n'] ((splitNL Y).map (fun x => '\t' :: x)) ++ ['\n'] ++ ['\t'] =
      pyJoin ['\n'] ((splitNL Y).map (fun x => '\t' :: x)) ++ ['\n', '\t'] := by
    simp
  rw [hsh, rstripTab_NL_tab, splitNL_concat_NL, List.dropLast_concat]
  congr 1
  refine splitNL_pyJoin _ hAne ?_
  intro seg hseg
  rcases List.mem_map.mp hseg with ⟨l, hl, rfl⟩
  have hnl := splitNL_noNL_segs Y l hl
  simp [List.mem_cons, hnl]

/-- Unfolding `renderMsg` with `check_thread = false`. -/
lemma renderMsg_false (tzOff : Int) (users : List SUser) (msg : SMsg) :
    renderMsg tzOff users false msg =
      rstripTab (renderCore tzOff users msg ++ "\n\n".data ++ sepStars ++
        "\n\n".data) := by
  simp [renderMsg]

lemma renderMsg_true_reply (tzOff : Int) (users : List SUser) (msg : SMsg)
    (hp : msg.parent_user_id.isSome = true) :
    renderMsg tzOff users true msg =
      rstripTab (pyJoin "\n".data ((splitNL (renderCore tzOff users msg ++
        "\n\n".data ++ sepStars ++ "\n\n".data)).map (fun x => '\t' :: x))) := by
  simp [renderMsg, hp]

/-- C5.  A message carrying a parent-user marker, rendered with
`check_thread = true`, has every line of its block prefixed with exactly
one added tab relative to its un-threaded rendering — formally, the split
lines of the threaded block are the split lines of the plain block, each
with one `'\t'` prepended, the trailing empty segment after the block's
final newline staying empty — while a message without a parent-user marker
(such as a thread root) renders identically with and without
`check_thread`, receiving no indentation. -/
theorem c5_thread_indentation (tzOff : Int) (users : List SUser) (msg : SMsg) :
    (msg.parent_user_id.isSome = true →
      splitNL (renderMsg tzOff users true msg) =
        (splitNL (renderMsg tzOff users false msg)).dropLast.map
          (fun l => '\t' :: l) ++ [[]]) ∧
    (msg.parent_user_id = none →
      renderMsg tzOff users true msg = renderMsg tzOff users false msg) := by
  have hnn : "\n\n".data = ['\n', '\n'] := rfl
  have hn : "\n".data = [('\n' : Char)] := rfl
  have hE : renderCore tzOff users msg ++ "\n\n".data ++ sepStars ++ "\n\n".data =
      (renderCore tzOff users msg ++ "\n\n".data ++ sepStars ++ ['\n']) ++ ['\n'] := by
    rw [hnn]
    simp
  constructor
  · intro hp
    rw [renderMsg_true_reply tzOff users msg hp, renderMsg_false, hE, hn,
      rstripTab_NL, tabBlock_split]
  · intro hp
    simp [renderMsg, hp]

/-- Witness for C5: a concrete reply (with `parent_user_id` present)
satisfies the line-by-line tab relation to its un-threaded rendering. -/
theorem c5_thread_indentation_witness :
    splitNL (renderMsg 0 []
        true ⟨"message".data, none, 0, "hi".data, none, none, some "U9".data⟩) =
      (splitNL (renderMsg 0 []
        false ⟨"message".data, none, 0, "hi".data, none, none, some "U9".data⟩)).dropLast.map
        (fun l => '\t' :: l) ++ [[]] :=
  (c5_thread_indentation 0 []
    ⟨"message".data, none, 0, "hi".data, none, none, some "U9".data⟩).1 rfl

/-- C6 — the code's behaviour at the claim's failing input.  A message
with one complete attachment and one attachment missing `name` /
`url_private_download` renders the deleted-file marker **merged onto the
same line** as the complete attachment's entry: the two `"\n".join(...)`
groups (exporterVer2.py lines 380-388) are concatenated with no newline in
between, so the spec's required separate
`"[deleted, oversize, or unavailable file]"` line does not materialise. -/
theorem c6_deleted_file_merged_line :
    splitNL (filesPart [⟨"F1".data, some "a.txt".data, some "u1".data⟩,
        ⟨"F2".data, none, none⟩]) =
      [[], "Files:".data,
        " - [F1] a.txt, u1 - [F2] [deleted, oversize, or unavailable file]".data] := by
  decide

/-- C7 counterexample.  Transcript rendering is **not** independent of the
ambient environment: `datetime.fromtimestamp` uses the process's local
timezone, so the same message collection and user directory render
differently under two different local timezones (here UTC versus
UTC+1). -/
theorem c7_counterexample :
    parse_channel_history 0
        [⟨"message".data, none, 0, "hi".data, none, none, none⟩] [] false ≠
      parse_channel_history 3600
        [⟨"message".data, none, 0, "hi".data, none, none, none⟩] [] false := by
  decide

/-- C7 as amended.  Rendering is a pure function of the message
collection, the user directory, and the ambient local timezone: two
applications in an identical environment (equal timezone offsets) to
identical inputs yield identical text — deterministic and idempotent —
but, per `c7_counterexample`, the rendered text does depend on the
environment's local timezone through each message's timestamp line. -/
theorem c7_render_deterministic (tz tz' : Int) (msgs : List SMsg)
    (users : List SUser) (check_thread : Bool) (h : tz = tz') :
    parse_channel_history tz msgs users check_thread =
      parse_channel_history tz' msgs users check_thread := by
  rw [h]

/-- Witness for the amended C7 at concrete inputs. -/
theorem c7_render_deterministic_witness :
    parse_channel_history 0
        [⟨"message".data, none, 0, "hi".data, none, none, none⟩] [] false =
      parse_channel_history 0
        [⟨"message".data, none, 0, "hi".data, none, none, none⟩] [] false :=
  c7_render_deterministic 0 0
    [⟨"message".data, none, 0, "hi".data, none, none, none⟩] [] false rfl

/-! ## Lemmas about `pyReplace` (for claim C4) -/

/-- A list begins with itself. -/
lemma beginsWith_self_append (p t : List Char) : beginsWith p (p ++ t) = true := by
  induction p with
  | nil => rfl
  | cons c p ih => simp [beginsWith, ih]

/-- Replacing a pattern that does not occur leaves the string unchanged. -/
lemma pyReplace_no_occ (s pat rep : List Char) (h : occursIn pat s = false) :
    pyReplace s pat rep = s := by
  induction s with
  | nil => cases pat <;> rfl
  | cons c s ih =>
    cases pat with
    | nil => simp [occursIn, beginsWith] at h
    | cons p ps =>
      have h2 : beginsWith (p :: ps) (c :: s) = false ∧
          occursIn (p :: ps) s = false := by
        simpa [occursIn] using h
      simp [pyReplace_cons, h2.1, ih h2.2]

/-- Replacing at the very front of the string. -/
lemma pyReplace_at_head (pat b rep : List Char) (hpat : pat ≠ []) :
    pyReplace (pat ++ b) pat rep = rep ++ pyReplace b pat rep := by
  cases pat with
  | nil => exact absurd rfl hpat
  | cons p ps =>
    have hb : beginsWith (p :: ps) ((p :: ps) ++ b) = true :=
      beginsWith_self_append _ _
    have hd : ((p :: ps) ++ b).drop (p :: ps).length = b := List.drop_left _ _
    simp only [List.cons_append] at hb hd ⊢
    simp [pyReplace_cons, hb, hd]

/-- The central replacement lemma: when the pattern's only occurrence
reachable by the left-to-right scan is the distinguished one after `a`,
`pyReplace` rewrites exactly there and continues on `b`. -/
lemma pyReplace_split (a b pat rep : List Char) (hpat : pat ≠ [])
    (H : ∀ a₁ a₂, a = a₁ ++ a₂ → a₂ ≠ [] →
      beginsWith pat (a₂ ++ pat ++ b) = false) :
    pyReplace (a ++ pat ++ b) pat rep = a ++ rep ++ pyReplace b pat rep := by
  induction a with
  | nil => simpa using pyReplace_at_head pat b rep hpat
  | cons c a ih =>
    have h0 : beginsWith pat ((c :: a) ++ pat ++ b) = false :=
      H [] (c :: a) rfl (by simp)
    have ih' := ih (fun a₁ a₂ hsplit hne => H (c :: a₁) a₂ (by simp [hsplit]) hne)
    cases pat with
    | nil => exact absurd rfl hpat
    | cons p ps =>
      simp only [List.cons_append, List.append_assoc] at h0 ih' ⊢
      simp [pyReplace_cons, h0, ih']

/-- The decidable guard `noOccBefore pat s n`: no occurrence of `pat`
starts at any position `< n` of `s`. -/
def noOccBefore (pat s : List Char) (n : Nat) : Bool :=
  (List.range n).all (fun i => !(beginsWith pat (s.drop i)))

/-- Bridge from the decidable guard to the splitting hypothesis of
`pyReplace_split`. -/
lemma noOccBefore_split (pat a b : List Char)
    (h : noOccBefore pat (a ++ pat ++ b) a.length = true) :
    ∀ a₁ a₂, a = a₁ ++ a₂ → a₂ ≠ [] →
      beginsWith pat (a₂ ++ pat ++ b) = false := by
  intro a₁ a₂ hsplit hne
  have hlen : a₁.length < a.length := by
    subst hsplit
    have := List.length_pos.mpr hne
    simp only [List.length_append]
    omega
  have hdrop : (a ++ pat ++ b).drop a₁.length = a₂ ++ pat ++ b := by
    subst hsplit
    simp [List.append_assoc, List.drop_left]
  have hall := (List.all_eq_true.mp h) a₁.length
    (by simpa [List.mem_range] using hlen)
  rw [hdrop] at hall
  simpa using hall

/-- Folding the substitution step over ids whose mention pattern does not
occur in the text leaves the text unchanged. -/
lemma foldl_subst_id (users : List SUser) (ids : List (List Char))
    (t : List Char)
    (h : ∀ i ∈ ids, occursIn (mentionPat i) t = false) :
    ids.foldl (fun t u => pyReplace t (mentionPat u) (mentionRep u users)) t
      = t := by
  induction ids with
  | nil => rfl
  | cons i ids ih =>
    have h1 := pyReplace_no_occ t (mentionPat i) (mentionRep i users)
      (h i (by simp))
    simp only [List.foldl_cons]
    rw [h1]
    exact ih (fun x hx => h x (by simp [hx]))

/-- A mention pattern is never empty. -/
lemma mentionPat_ne_nil (i : List Char) : mentionPat i ≠ [] := by
  intro h
  have := congrArg List.length h
  simp [mentionPat] at this

/-- C4.  Mention substitution.  First conjunct: for the spec's concrete
example — body `"hello <@U1> and <@U2>"` against users U1 "alice" and
U2 "bob" — the rendered message text line (line 2 of the message block
produced by `parse_channel_history`) equals
`"hello <@U1> (alice) and <@U2> (bob)"`.  Second conjunct, the general
statement: for any user directory `pre ++ u :: post` and any text
`a ++ <@u.id> ++ b` whose only occurrence of `u.id`'s mention pattern is
the distinguished one (no occurrence starts inside `a`, none lies in `b`)
and in which no other user's mention pattern occurs (before or after the
rewrite), the substitution pass replaces that literal `<@USERID>` by
`<@USERID> (resolved-name)` and preserves the surrounding text `a` and `b`
exactly. -/
theorem c4_mention_substitution (users pre post : List SUser) (u : SUser)
    (a b : List Char) (husers : users = pre ++ u :: post)
    (hpre : ∀ v ∈ pre,
      occursIn (mentionPat v.id) (a ++ mentionPat u.id ++ b) = false)
    (hpost : ∀ v ∈ post,
      occursIn (mentionPat v.id) (a ++ mentionRep u.id users ++ b) = false)
    (hhead : noOccBefore (mentionPat u.id) (a ++ mentionPat u.id ++ b)
      a.length = true)
    (hb : occursIn (mentionPat u.id) b = false) :
    (splitNL (parse_channel_history 0
        [⟨"message".data, none, 0, "hello <@U1> and <@U2>".data, none, none,
          none⟩]
        [⟨"U1".data, "alice".data, none, none⟩,
          ⟨"U2".data, "bob".data, none, none⟩]
        false))[2]? = some "hello <@U1> (alice) and <@U2> (bob)".data ∧
    substituteMentions (a ++ mentionPat u.id ++ b) users =
      a ++ mentionRep u.id users ++ b := by
  constructor
  · decide
  · subst husers
    unfold substituteMentions
    rw [List.map_append, List.map_cons, List.foldl_append, List.foldl_cons]
    have hpre' : (pre.map (fun x => x.id)).foldl
        (fun t v => pyReplace t (mentionPat v)
          (mentionRep v (pre ++ u :: post)))
        (a ++ mentionPat u.id ++ b) = a ++ mentionPat u.id ++ b := by
      refine foldl_subst_id _ _ _ ?_
      intro i hi
      rcases List.mem_map.mp hi with ⟨v, hv, rfl⟩
      exact hpre v hv
    rw [hpre']
    have hmid : pyReplace (a ++ mentionPat u.id ++ b) (mentionPat u.id)
        (mentionRep u.id (pre ++ u :: post)) =
        a ++ mentionRep u.id (pre ++ u :: post) ++
          pyReplace b (mentionPat u.id) (mentionRep u.id (pre ++ u :: post)) :=
      pyReplace_split a b _ _ (mentionPat_ne_nil _)
        (noOccBefore_split _ a b hhead)
    rw [pyReplace_no_occ b _ _ hb] at hmid
    rw [hmid]
    refine foldl_subst_id _ _ _ ?_
    intro i hi
    rcases List.mem_map.mp hi with ⟨v, hv, rfl⟩
    exact hpost v hv

/-- Witness for C4: a single-user directory and the text
`"hello <@U1> bye"`; the substitution yields
`"hello " ++ mentionRep ++ " bye"`, i.e. `"hello <@U1> (alice) bye"`. -/
theorem c4_mention_substitution_witness :
    substituteMentions ("hello ".data ++ mentionPat "U1".data ++ " bye".data)
        [⟨"U1".data, "alice".data, none, none⟩] =
      "hello ".data ++
        mentionRep "U1".data [⟨"U1".data, "alice".data, none, none⟩] ++
        " bye".data :=
  (c4_mention_substitution [⟨"U1".data, "alice".data, none, none⟩] [] []
    ⟨"U1".data, "alice".data, none, none⟩ "hello ".data " bye".data rfl
    (by decide) (by decide) (by decide) (by decide)).2
